import Mathlib

/-!
Shallow embedding of the two command handlers of the `moactl` repository:

* `upgrade cluster` (file `cmd/upgrade/cluster/cmd.go`, package `cluster`,
  provided as `src/unnamed/part_000`), and
* `revoke user` (file `src/cmd/revoke/user/cmd.go`, package `user`).

Each handler's `run` function is embedded as a pure function from the
command-line arguments and an *oracle* (the results of all external calls:
AWS client construction, the OCM connection, remote queries, interactive
prompts, and the wall clock) to the list of observable events it emits
(connection open/close, remote mutation calls, the "already scheduled"
warning, the invalid-role error report) together with the way the process
terminates (`os.Exit code`, a Go runtime panic, or a normal return from
`run`).

Go specifics modelled explicitly:
* `os.Exit` terminates the process immediately and does NOT run deferred
  functions; a runtime panic and a normal return DO run them.
* `strings.Split(s, " ")` always returns a non-empty slice; indexing
  `parts[1]` on a one-element slice panics (index out of range).
* `strconv.ParseFloat` is modelled on its plain decimal fragment
  (optional sign, digits, optional fractional part), with exact rational
  arithmetic standing in for float64 (all values occurring in the
  commands are far below 2^53, where float64 is exact).
* `time.Time` (UTC) is modelled as seconds; `Format("2006-01-02")`
  exposes the day number `t / 86400` and `Format("15:04")` the
  minute-of-day `t % 86400 / 60`; `time.Parse` of a rendered date and a
  rendered time recombines them as `day * 86400 + minute * 60`.
  Parsing of user-supplied literal strings is an oracle.
-/

namespace Moactl

/-! ### Characters, digits and decimal numerals -/

/-- One decimal digit character, `'0'`..`'9'`. -/
def isDig (c : Char) : Bool := 48 ≤ c.toNat && c.toNat ≤ 57

/-- Value of a most-significant-first digit list (used by the decimal
fragment of `strconv.ParseFloat`). -/
def digitsToNat (l : List Char) : ℕ :=
  l.foldl (fun acc c => 10 * acc + (c.toNat - 48)) 0

/-- Decimal digit character of `n < 10`. -/
def digitChar (n : ℕ) : Char := Char.ofNat (48 + n)

/-- Decimal numeral of a natural number, most significant digit first
(the model of `fmt.Sprintf("%d", n)` for non-negative `n`). -/
def natToDecChars (n : ℕ) : List Char :=
  if _h : n < 10 then [digitChar n]
  else natToDecChars (n / 10) ++ [digitChar (n % 10)]
  termination_by n
  decreasing_by exact Nat.div_lt_self (by omega) (by omega)

/-- Decimal numeral as a `String`. -/
def natToDecStr (n : ℕ) : String := ⟨natToDecChars n⟩

/-- Model of `fmt.Sprintf("%d", i)` for a Go `int`. -/
def intToDecStr (i : ℤ) : String :=
  if i < 0 then "-" ++ natToDecStr (-i).toNat else natToDecStr i.toNat

/-- Model of `strings.Split(s, " ")` on the character list: split at every
single space; `splitSp [] = [[]]`, like Go's `Split("", " ") = [""]`. -/
def splitSp : List Char → List (List Char)
  | [] => [[]]
  | c :: r =>
    if c = ' ' then [] :: splitSp r
    else
      match splitSp r with
      | [] => [[c]]
      | h :: t => (c :: h) :: t

/-- Unsigned part of the decimal fragment of `strconv.ParseFloat`:
digits, optionally followed by `'.'` and digits, at least one digit in
total. Exact rational value. (When the tail after the leading digits is
empty the whole input is its digit prefix.) -/
def parseUnsigned (l : List Char) : Option ℚ :=
  match l.dropWhile isDig with
  | [] => if l.isEmpty then none else some (digitsToNat l)
  | '.' :: fp =>
    if fp.all isDig && !((l.takeWhile isDig).isEmpty && fp.isEmpty) then
      some ((digitsToNat (l.takeWhile isDig) : ℚ) +
        (digitsToNat fp : ℚ) / ((10 : ℚ) ^ fp.length))
    else none
  | _ => none

/-- Decimal fragment of `strconv.ParseFloat` (optional sign). -/
def parseFloatChars (l : List Char) : Option ℚ :=
  match l with
  | [] => none
  | c :: r =>
    if c = '-' then (parseUnsigned r).map (fun q => -q)
    else if c = '+' then parseUnsigned r
    else parseUnsigned (c :: r)

/-- Go `int(x)` conversion of a float64 (here: rational): truncation
toward zero. -/
def truncQ (q : ℚ) : ℤ := Int.tdiv q.num q.den

/-! ### Grace-period resolution (part_000, lines 327-335)

```go
nodeDrainParsed := strings.Split(nodeDrainGracePeriod, " ")
nodeDrainValue, err := strconv.ParseFloat(nodeDrainParsed[0], 64)
if err != nil { reporter.Errorf(...); os.Exit(1) }
if nodeDrainParsed[1] == "hours" || nodeDrainParsed[1] == "hour" {
    nodeDrainValue = nodeDrainValue * 60
}
```

`nodeDrainParsed[1]` is accessed unconditionally: when the split produced
a single element (no space in the string) and the number parsed, the Go
program panics with an index-out-of-range runtime error. -/

/-- Outcome of the grace-period parsing step: a reported fatal error
(`Errorf` + `os.Exit(1)`), a runtime panic (unguarded `parts[1]`), or
the normalized value in minutes. -/
inductive GraceOutcome
  | fatalErr
  | panicOOB
  | val (v : ℚ)
  deriving DecidableEq

/-- Lines 327-335 of the upgrade command: split the grace-period string
on spaces, `ParseFloat` the first token (failure: fatal error), read the
second token unconditionally (absent: runtime panic), multiply by 60 when
it is `"hours"` or `"hour"`. -/
def resolveGrace (s : String) : GraceOutcome :=
  let parts := splitSp s.data
  match parseFloatChars parts.headI with
  | none => .fatalErr
  | some q =>
    match parts.get? 1 with
    | none => .panicOOB
    | some u =>
      if u = "hours".data ∨ u = "hour".data then .val (q * 60) else .val q

/-! ### Observable events and process termination

Both `run` functions terminate either through `os.Exit(code)` (which in Go
skips deferred functions), through a runtime panic (which runs deferred
functions while unwinding), or by returning normally from `run` (the
deferred functions run, then `main` returns and the process exits 0). -/

/-- How the process terminates. -/
inductive Outcome
  | exited (code : ℕ)
  | panicked
  | returned
  deriving DecidableEq

/-- Observable events of a command execution: the OCM connection
lifecycle, the remote mutation calls, the "already scheduled" warning and
the invalid-role error report. -/
inductive Event
  | openConn
  | closeConn
  | warnExisting (version : String) (nextRun : ℕ)
  | policyCreate (version : String) (nextRun : ℕ)
  | clusterUpdate (grace : ℚ)
  | deleteMembership (role username : String)
  | errInvalidRole
  deriving DecidableEq

/-- The two remote mutation calls of the upgrade command. -/
def isMutation : Event → Bool
  | .policyCreate _ _ => true
  | .clusterUpdate _ => true
  | _ => false

/-- Modelled from the spec: `IsValidClusterKey` lives in
`pkg/cluster`/`pkg/ocm`, which is not part of the provided sources.
Spec §3/§4.2: true iff the string is non-empty and contains only
letters, digits, dashes and underscores. -/
def IsValidClusterKey (s : String) : Bool :=
  !s.isEmpty && s.data.all (fun c => c.isAlpha || c.isDigit || c = '-' || c = '_')

/-- Modelled from the spec: `IsValidUsername` lives in `pkg/ocm`, which
is not part of the provided sources. Spec §4.2: same character set as
cluster keys. -/
def IsValidUsername (s : String) : Bool :=
  !s.isEmpty && s.data.all (fun c => c.isAlpha || c.isDigit || c = '-' || c = '_')

/-! ### Date/time model

`time.Time` (always UTC here) is a number of seconds. Rendering with
layout `"2006-01-02"` keeps exactly the day number and rendering with
`"15:04"` keeps exactly the minute of the day; re-parsing a rendered
date plus a rendered time yields `day * 86400 + minuteOfDay * 60`
(seconds truncated). A date or time string typed by the user is kept as
a literal whose parse results are supplied by the oracle. -/

/-- A value held by the `scheduleDate` string variable: either the
rendering of a time (day number) or a user-supplied literal. -/
inductive DateStr
  | fmtD (day : ℕ)
  | litD (s : String)
  deriving DecidableEq

/-- A value held by the `scheduleTime` string variable: either the
rendering of a time (minute of day) or a user-supplied literal. -/
inductive TimeStr
  | fmtT (minuteOfDay : ℕ)
  | litT (s : String)
  deriving DecidableEq

/-! ### The upgrade command (part_000, `func run`) -/

/-- Command-line flag state of `upgrade cluster` (`var args`), plus
whether `--node-drain-grace-period` was explicitly passed
(`cmd.Flags().Changed`). -/
structure UpgradeArgs where
  clusterKey : String
  version : String
  scheduleDate : String
  scheduleTime : String
  nodeDrainGracePeriod : String
  nodeDrainChanged : Bool

/-- Results of every external call made by the upgrade command: client
construction, remote queries, interactive prompts, clock, parses of
user-supplied literals, and the two submission calls. -/
structure UpgradeOracle where
  awsOk : Bool
  creatorOk : Bool
  connOk : Bool
  getClusterOk : Bool
  clusterReady : Bool
  ndStored : Option ℚ
  ndStoredUnit : String
  schedQueryOk : Bool
  scheduled : Option (String × ℕ)
  availQueryOk : Bool
  avail : List String
  interactive : Bool
  getOptionVersion : String → Except Unit String
  now : ℕ
  getStringDate : DateStr → Except Unit DateStr
  getStringTime : TimeStr → Except Unit TimeStr
  dateLitOk : String → Bool
  timeLitOk : String → Bool
  parseMixed : DateStr → TimeStr → Option ℕ
  getOptionDrain : String → Except Unit String
  clusterBuildOk : Bool
  policyBuildOk : Bool
  policyCreateOk : Bool
  clusterUpdateOk : Bool

/-- `time.Parse("2006-01-02 15:04", date ++ " " ++ time)`: when both
components are renderings, the result recombines the day and the minute
of day; when a user literal is involved, the outcome is the oracle's. -/
def goParseDT (o : UpgradeOracle) : DateStr → TimeStr → Option ℕ
  | .fmtD d, .fmtT m => some (d * 86400 + m * 60)
  | d, t => o.parseMixed d t

/-- `time.Parse("2006-01-02", s)` succeeds on every rendered date;
on a user literal the oracle decides. -/
def dateParseOk (o : UpgradeOracle) : DateStr → Bool
  | .fmtD _ => true
  | .litD s => o.dateLitOk s

/-- `time.Parse("15:04", s)` succeeds on every rendered time;
on a user literal the oracle decides. -/
def timeParseOk (o : UpgradeOracle) : TimeStr → Bool
  | .fmtT _ => true
  | .litT s => o.timeLitOk s

/-- Lines 193-208: resolve the target version. When no version was
passed or interactive mode is on, default to the first available
upgrade and run it through `interactive.GetOption` (whose result, as a
function of the default, is the oracle's); an error there is fatal. -/
def resolveVersion (a : UpgradeArgs) (o : UpgradeOracle) : Except Unit String :=
  if a.version = "" ∨ o.interactive then
    let v0 := if a.version = "" then o.avail.headI else a.version
    o.getOptionVersion v0
  else .ok a.version

/-- Lines 223-277: resolve the `nextRun` timestamp. The default is
`time.Now().UTC().Add(10 * time.Minute)` rendered as a date and a time;
a flag overrides the corresponding component. In interactive mode the
components are reconciled (falling back to the default on a parse
failure), prompted for and validated. Finally the date and time are
parsed together; failure is fatal. -/
def resolveNextRun (a : UpgradeArgs) (o : UpgradeOracle) : Except Unit ℕ :=
  let now := o.now + 600
  let dp : DateStr := if a.scheduleDate = "" then .fmtD (now / 86400) else .litD a.scheduleDate
  let tp : TimeStr := if a.scheduleTime = "" then .fmtT (now % 86400 / 60) else .litT a.scheduleTime
  if o.interactive then
    let t0 := (goParseDT o dp tp).getD now
    let dp1 := DateStr.fmtD (t0 / 86400)
    let tp1 := TimeStr.fmtT (t0 % 86400 / 60)
    match o.getStringDate dp1 with
    | .error _ => .error ()
    | .ok dp2 =>
      if dateParseOk o dp2 then
        match o.getStringTime tp1 with
        | .error _ => .error ()
        | .ok tp2 =>
          if timeParseOk o tp2 then
            match goParseDT o dp2 tp2 with
            | none => .error ()
            | some t => .ok t
          else .error ()
      else .error ()
  else
    match goParseDT o dp tp with
    | none => .error ()
    | some t => .ok t

/-- Lines 286-300: render the cluster's stored node-drain grace period
(`nd.Value()` float64 minutes, `nd.Unit()`) as a default string,
converting values of 60 minutes and more to hours with Go integer
division and pluralization. -/
def renderStoredND (q : ℚ) (unit : String) : String :=
  let val : ℤ := truncQ q
  if 60 ≤ val then
    let v2 := Int.tdiv val 60
    intToDecStr v2 ++ " " ++ (if v2 = 1 then "hour" else "hours")
  else
    intToDecStr val ++ " " ++ unit

/-- Result of the node-drain grace-period block: a fatal reported error,
the runtime panic of `nodeDrainParsed[1]`, or the normalized value. -/
inductive DrainRes
  | exitErr
  | oob
  | value (g : ℚ)
  deriving DecidableEq

/-- Lines 284-335: determine the grace-period string (stored cluster
value rendered, unless unset or the flag was explicitly passed, in which
case the flag value), optionally run it through the interactive option
prompt, then split and parse it. -/
def resolveDrain (a : UpgradeArgs) (o : UpgradeOracle) : DrainRes :=
  let nd0 : String :=
    match o.ndStored with
    | some q => renderStoredND q o.ndStoredUnit
    | none => ""
  let nd1 := if nd0 = "" ∨ a.nodeDrainChanged then a.nodeDrainGracePeriod else nd0
  match (if o.interactive then o.getOptionDrain nd1 else .ok nd1) with
  | .error _ => .exitErr
  | .ok s =>
    match resolveGrace s with
    | .fatalErr => .exitErr
    | .panicOOB => .oob
    | .val v => .value v

/-- The part of the upgrade command's `run` that executes after the OCM
connection has been opened (lines 154-375), without the deferred close:
find the cluster, check its state, check for an existing scheduled
upgrade, fetch the available upgrades, resolve version / next run /
grace period, build the two payloads and submit them in order. -/
def upgradeBody (a : UpgradeArgs) (o : UpgradeOracle) : List Event × Outcome :=
  if o.getClusterOk = false then ([], .exited 1)
  else if o.clusterReady = false then ([], .exited 1)
  else if o.schedQueryOk = false then ([], .exited 1)
  else
    match o.scheduled with
    | some (sv, st) => ([.warnExisting sv st], .exited 0)
    | none =>
      if o.availQueryOk = false then ([], .exited 1)
      else if o.avail = [] then ([], .exited 0)
      else
        match resolveVersion a o with
        | .error _ => ([], .exited 1)
        | .ok version =>
          if o.avail.contains version = false then ([], .exited 1)
          else
            match resolveNextRun a o with
            | .error _ => ([], .exited 1)
            | .ok nextRun =>
              match resolveDrain a o with
              | .exitErr => ([], .exited 1)
              | .oob => ([], .panicked)
              | .value g =>
                if o.clusterBuildOk = false then ([], .exited 1)
                else if o.policyBuildOk = false then ([], .exited 1)
                else if o.policyCreateOk = false then
                  ([.policyCreate version nextRun], .exited 1)
                else if o.clusterUpdateOk = false then
                  ([.policyCreate version nextRun, .clusterUpdate g], .exited 1)
                else
                  ([.policyCreate version nextRun, .clusterUpdate g], .returned)

/-- Wrap the body with the connection lifecycle: prepend `openConn`, and
run the deferred `Close` (append `closeConn`) exactly when the body
returns normally or panics — `os.Exit` skips deferred functions. -/
def withConn : List Event × Outcome → List Event × Outcome
  | (evs, .exited c) => (Event.openConn :: evs, .exited c)
  | (evs, out) => (Event.openConn :: (evs ++ [Event.closeConn]), out)

/-- `func run` of the upgrade command (part_000, lines 103-375):
validate the cluster key, build the AWS client, get the creator, open
the OCM connection (installing the deferred close), then run the body. -/
def upgradeRun (a : UpgradeArgs) (o : UpgradeOracle) : List Event × Outcome :=
  if IsValidClusterKey a.clusterKey = false then ([], .exited 1)
  else if o.awsOk = false then ([], .exited 1)
  else if o.creatorOk = false then ([], .exited 1)
  else if o.connOk = false then ([], .exited 1)
  else withConn (upgradeBody a o)

/-! ### The revoke command (src/cmd/revoke/user/cmd.go, `func run`) -/

/-- Command-line state of `revoke user` plus the positional arguments. -/
structure RevokeArgs where
  clusterKey : String
  username : String
  argv : List String

/-- Results of the external calls made by the revoke command. -/
structure RevokeOracle where
  awsOk : Bool
  creatorOk : Bool
  connOk : Bool
  getClusterOk : Bool
  confirmed : Bool
  deleteOk : Bool

/-- `var validRoles` (cmd.go line 50). -/
def validRoles : List String := ["cluster-admins", "dedicated-admins"]

/-- `var validRolesAliases` (cmd.go line 51). -/
def validRolesAliases : List String := ["cluster-admin", "dedicated-admin"]

/-- Lines 108-113: the alias loop appends `"s"` to the role each time it
equals one of the aliases. -/
def canonicalizeRole (r : String) : String :=
  validRolesAliases.foldl (fun role va => if role = va then role ++ "s" else role) r

/-- Lines 114-120: the validity loop sets `isRoleValid` iff the role is
one of `validRoles`. -/
def isRoleValid (r : String) : Bool := validRoles.contains r

/-- `func run` of the revoke command (cmd.go, lines 75-178): validate
cluster key, username and argument count, canonicalize the role, report
an invalid role (note: `reporter.Errorf` on line 122 is not followed by
`os.Exit`, so execution continues), build the AWS client, open the OCM
connection (deferred close), find the cluster, ask for confirmation and
submit the delete-membership request. -/
def revokeRun (a : RevokeArgs) (o : RevokeOracle) : List Event × Outcome :=
  if IsValidClusterKey a.clusterKey = false then ([], .exited 1)
  else if IsValidUsername a.username = false then ([], .exited 1)
  else if a.argv.length ≠ 1 then ([], .exited 1)
  else
    let role := canonicalizeRole a.argv.headI
    let errEvs : List Event := if isRoleValid role then [] else [.errInvalidRole]
    if o.awsOk = false then (errEvs, .exited 1)
    else if o.creatorOk = false then (errEvs, .exited 1)
    else if o.connOk = false then (errEvs, .exited 1)
    else
      let body : List Event × Outcome :=
        if o.getClusterOk = false then ([], .exited 1)
        else if o.confirmed = false then ([], .exited 0)
        else if o.deleteOk = false then ([.deleteMembership role a.username], .exited 1)
        else ([.deleteMembership role a.username], .returned)
      match withConn body with
      | (evs, out) => (errEvs ++ evs, out)

/-! ### Concrete executions used as witnesses and counterexamples -/

/-- Flags of a plain non-interactive invocation
`upgrade cluster -c mycluster --version 4.5.20` (the other flags keep
their defaults). -/
def happyArgs : UpgradeArgs where
  clusterKey := "mycluster"
  version := "4.5.20"
  scheduleDate := ""
  scheduleTime := ""
  nodeDrainGracePeriod := "1 hour"
  nodeDrainChanged := false

/-- An environment in which every external call succeeds: the cluster
exists and is ready, nothing is scheduled, one upgrade is available, no
stored grace period, interactive prompts echo their defaults. -/
def happyOracle : UpgradeOracle where
  awsOk := true
  creatorOk := true
  connOk := true
  getClusterOk := true
  clusterReady := true
  ndStored := none
  ndStoredUnit := "minutes"
  schedQueryOk := true
  scheduled := none
  availQueryOk := true
  avail := ["4.5.20"]
  interactive := false
  getOptionVersion := fun d => .ok d
  now := 0
  getStringDate := fun d => .ok d
  getStringTime := fun t => .ok t
  dateLitOk := fun _ => true
  timeLitOk := fun _ => true
  parseMixed := fun _ _ => none
  getOptionDrain := fun d => .ok d
  clusterBuildOk := true
  policyBuildOk := true
  policyCreateOk := true
  clusterUpdateOk := true

/-- The happy environment with a stored node-drain grace period of 90
minutes on the cluster. -/
def stored90Oracle : UpgradeOracle :=
  { happyOracle with ndStored := some ((90 : ℕ) : ℚ) }

/-- The submission discipline of C7, about a result `p` of a command
phase under the oracle `o`: the mutation calls of the trace are, in
order, nothing, the policy creation alone, or the policy creation
followed by the cluster update; when the policy creation fails no
cluster update appears and a trace that holds the creation exits 1;
when the cluster update fails after a successful creation the command
exits 1 and the mutation calls are exactly the two — no compensating
call. -/
def SubmissionOrdered (o : UpgradeOracle) (p : List Event × Outcome) : Prop :=
  (p.1.filter isMutation = []
    ∨ (∃ v t, p.1.filter isMutation = [.policyCreate v t])
    ∨ (∃ v t g, p.1.filter isMutation = [.policyCreate v t, .clusterUpdate g]))
  ∧ (o.policyCreateOk = false →
      (∀ g, Event.clusterUpdate g ∉ p.1)
      ∧ ((∃ v t, Event.policyCreate v t ∈ p.1) → p.2 = .exited 1))
  ∧ (o.clusterUpdateOk = false →
      (∃ g, Event.clusterUpdate g ∈ p.1) →
      p.2 = .exited 1
      ∧ ∃ v t g, p.1.filter isMutation = [.policyCreate v t, .clusterUpdate g])

/-- A fatal termination: exit code 1 and no mutation call issued. -/
def FatalNoMutation (p : List Event × Outcome) : Prop :=
  p.2 = .exited 1 ∧ p.1.filter isMutation = []

example : resolveGrace "45 minutes" = .val 45 := by decide
example : resolveGrace "60" = .panicOOB := by decide
example : resolveGrace "abc" = .fatalErr := by decide
example : resolveGrace "" = .fatalErr := by decide
example : (upgradeRun happyArgs happyOracle).2 = .returned := by decide
example : Event.policyCreate "4.5.20" 600 ∈ (upgradeRun happyArgs happyOracle).1 := by decide
example : Event.closeConn ∈ (upgradeRun happyArgs happyOracle).1 := by decide

/-! ### Claim theorems -/

/-- C1. The claim says an unknown role (after alias canonicalization)
makes the revoke command fail fatally without issuing a delete-membership
request. The code (cmd.go line 122) reports the error but has no
`os.Exit(1)` there, so with `revoke user foo --user=alice
--cluster=mycluster` and every external call succeeding, the command
reports the invalid role, then nevertheless issues the delete-membership
request for role `"foo"` and returns normally (exit code 0). -/
theorem revoke_invalid_role_proceeds :
    isRoleValid (canonicalizeRole "foo") = false
    ∧ revokeRun ⟨"mycluster", "alice", ["foo"]⟩ ⟨true, true, true, true, true, true⟩ =
        ([.errInvalidRole, .openConn, .deleteMembership "foo" "alice", .closeConn],
          .returned) := by
  decide

/-- C2. The claim says every malformed grace-period string — including
one with no space-separated unit token such as `"60"` — ends in a
reported fatal input error and nothing else. In the code
(part_000 lines 327-335) `"60"` splits into a single token,
`ParseFloat` succeeds, and the unguarded access `nodeDrainParsed[1]`
panics (index out of range) instead of reporting a fatal error: running
`upgrade cluster --node-drain-grace-period=60` on a ready cluster
reaches the panic. -/
theorem grace_no_unit_token_panics :
    resolveGrace "60" = .panicOOB
    ∧ (upgradeRun
        { happyArgs with nodeDrainGracePeriod := "60", nodeDrainChanged := true }
        happyOracle).2 = .panicked := by
  decide

/-- The post-connection body of the upgrade command stops with exit
code 1 as soon as the cluster is not ready. -/
theorem upgradeBody_not_ready (a : UpgradeArgs) (o : UpgradeOracle)
    (h : o.clusterReady = false) : upgradeBody a o = ([], .exited 1) := by
  simp [upgradeBody, h]

/-- C4. For every cluster whose state is not `Ready`, the upgrade
command terminates with exit code 1 and issues no remote mutation
(no upgrade-policy creation and no cluster update),
part_000 lines 161-164. -/
theorem upgrade_not_ready_fatal (a : UpgradeArgs) (o : UpgradeOracle)
    (h : o.clusterReady = false) :
    (upgradeRun a o).2 = .exited 1
    ∧ ∀ e ∈ (upgradeRun a o).1, isMutation e = false := by
  simp only [upgradeRun, upgradeBody_not_ready a o h, withConn]
  repeat' split
  all_goals simp [isMutation]

/-- Witness for `upgrade_not_ready_fatal` on a concrete not-ready
cluster. -/
theorem upgrade_not_ready_fatal_witness :
    (upgradeRun happyArgs { happyOracle with clusterReady := false }).2 = .exited 1
    ∧ ∀ e ∈ (upgradeRun happyArgs { happyOracle with clusterReady := false }).1,
        isMutation e = false :=
  upgrade_not_ready_fatal happyArgs { happyOracle with clusterReady := false } rfl

/-- C5. Whenever the existing-schedule query runs and returns a
scheduled upgrade, the command warns with that upgrade's version and
time, exits with code 0, and issues neither a policy-creation call nor
a cluster update (part_000 lines 166-177). The hypotheses state that
execution reaches the query and that it returns an upgrade. -/
theorem upgrade_already_scheduled_skip (a : UpgradeArgs) (o : UpgradeOracle)
    (sv : String) (st : ℕ)
    (hk : IsValidClusterKey a.clusterKey = true) (h1 : o.awsOk = true)
    (h2 : o.creatorOk = true) (h3 : o.connOk = true) (h4 : o.getClusterOk = true)
    (h5 : o.clusterReady = true) (h6 : o.schedQueryOk = true)
    (h7 : o.scheduled = some (sv, st)) :
    Event.warnExisting sv st ∈ (upgradeRun a o).1
    ∧ (upgradeRun a o).2 = .exited 0
    ∧ ∀ e ∈ (upgradeRun a o).1, isMutation e = false := by
  simp [upgradeRun, upgradeBody, withConn, hk, h1, h2, h3, h4, h5, h6, h7, isMutation]

/-- Witness for `upgrade_already_scheduled_skip`: a cluster with an
upgrade to 4.5.19 already scheduled at time 1000. -/
theorem upgrade_already_scheduled_skip_witness :
    Event.warnExisting "4.5.19" 1000 ∈
        (upgradeRun happyArgs { happyOracle with scheduled := some ("4.5.19", 1000) }).1
    ∧ (upgradeRun happyArgs { happyOracle with scheduled := some ("4.5.19", 1000) }).2 =
        .exited 0
    ∧ ∀ e ∈ (upgradeRun happyArgs { happyOracle with scheduled := some ("4.5.19", 1000) }).1,
        isMutation e = false :=
  upgrade_already_scheduled_skip happyArgs
    { happyOracle with scheduled := some ("4.5.19", 1000) } "4.5.19" 1000
    rfl rfl rfl rfl rfl rfl rfl rfl

/-- The body of the upgrade command never emits the close event itself
(the close belongs to the deferred function added by `withConn`). -/
theorem upgradeBody_no_close (a : UpgradeArgs) (o : UpgradeOracle) :
    Event.closeConn ∉ (upgradeBody a o).1 := by
  unfold upgradeBody
  repeat' split
  all_goals simp

/-- Either the upgrade command exits before the connection is opened
(with code 1 and no events), or its result is the wrapped body. -/
theorem upgradeRun_cases (a : UpgradeArgs) (o : UpgradeOracle) :
    upgradeRun a o = ([], .exited 1)
    ∨ upgradeRun a o = withConn (upgradeBody a o) := by
  unfold upgradeRun
  repeat' split
  all_goals simp

/-- C3 counterexample. The claim says that on every execution path the
opened connection is closed before exit. On the path where the cluster
lookup fails, `os.Exit(1)` runs without executing the deferred
`ocmConnection.Close()` (Go's `os.Exit` skips deferred functions): the
connection is opened but never closed. -/
theorem conn_close_counterexample :
    Event.openConn ∈ (upgradeRun happyArgs { happyOracle with getClusterOk := false }).1
    ∧ Event.closeConn ∉ (upgradeRun happyArgs { happyOracle with getClusterOk := false }).1
    ∧ (upgradeRun happyArgs { happyOracle with getClusterOk := false }).2 = .exited 1 := by
  decide

/-- C3 amended. In both commands the deferred close runs exactly on the
terminations that Go's defer mechanism covers — a normal return from
`run` or a panic unwind; every early termination through `os.Exit`
(fatal errors and the informational exit-0 stops) leaves the connection
unclosed. -/
theorem conn_close_amended :
    (∀ (a : UpgradeArgs) (o : UpgradeOracle),
      ((upgradeRun a o).2 = .returned ∨ (upgradeRun a o).2 = .panicked →
        Event.closeConn ∈ (upgradeRun a o).1)
      ∧ (Event.closeConn ∈ (upgradeRun a o).1 →
          (upgradeRun a o).2 = .returned ∨ (upgradeRun a o).2 = .panicked))
    ∧ (∀ (a : RevokeArgs) (o : RevokeOracle),
      ((revokeRun a o).2 = .returned → Event.closeConn ∈ (revokeRun a o).1)
      ∧ (Event.closeConn ∈ (revokeRun a o).1 → (revokeRun a o).2 = .returned)) := by
  constructor
  · intro a o
    rcases upgradeRun_cases a o with h | h <;> rw [h]
    · simp
    · have hnc := upgradeBody_no_close a o
      rcases hb : upgradeBody a o with ⟨evs, out⟩
      rw [hb] at hnc
      simp only at hnc
      cases out <;> simp_all [withConn]
  · intro a o
    unfold revokeRun withConn
    repeat' split
    all_goals simp_all

/-- Witness for `conn_close_amended`: the fully successful upgrade run
returns normally and its trace closes the connection. -/
theorem conn_close_amended_witness :
    Event.closeConn ∈ (upgradeRun happyArgs happyOracle).1 :=
  (conn_close_amended.1 happyArgs happyOracle).1 (Or.inl (by decide))

/-- The body of the upgrade command obeys the submission discipline. -/
theorem upgradeBody_submission (a : UpgradeArgs) (o : UpgradeOracle) :
    SubmissionOrdered o (upgradeBody a o) := by
  unfold upgradeBody
  repeat' split
  all_goals simp_all [SubmissionOrdered, isMutation]

/-- Wrapping the body does not change the mutation calls. -/
theorem withConn_filter (p : List Event × Outcome) :
    (withConn p).1.filter isMutation = p.1.filter isMutation := by
  rcases p with ⟨evs, out⟩
  cases out <;> simp [withConn, isMutation]

/-- Wrapping the body does not change the outcome. -/
theorem withConn_snd (p : List Event × Outcome) : (withConn p).2 = p.2 := by
  rcases p with ⟨evs, out⟩
  cases out <;> simp [withConn]

/-- Wrapping the body does not change membership of mutation events. -/
theorem withConn_mem_mut (p : List Event × Outcome) (e : Event)
    (h : isMutation e = true) : e ∈ (withConn p).1 ↔ e ∈ p.1 := by
  rcases p with ⟨evs, out⟩
  cases out <;> cases e <;> simp_all [withConn, isMutation]

/-- The connection wrapper preserves the submission discipline. -/
theorem submissionOrdered_withConn (o : UpgradeOracle) (p : List Event × Outcome)
    (h : SubmissionOrdered o p) : SubmissionOrdered o (withConn p) := by
  obtain ⟨h1, h2, h3⟩ := h
  refine ⟨?_, ?_, ?_⟩
  · rw [withConn_filter]
    exact h1
  · intro hf
    obtain ⟨ha, hb⟩ := h2 hf
    refine ⟨?_, ?_⟩
    · intro g
      rw [withConn_mem_mut p (Event.clusterUpdate g) rfl]
      exact ha g
    · rintro ⟨v, t, hm⟩
      rw [withConn_mem_mut p (Event.policyCreate v t) rfl] at hm
      rw [withConn_snd]
      exact hb ⟨v, t, hm⟩
  · rintro hf ⟨g, hg⟩
    rw [withConn_mem_mut p (Event.clusterUpdate g) rfl] at hg
    obtain ⟨hx, hy⟩ := h3 hf ⟨g, hg⟩
    rw [withConn_snd, withConn_filter]
    exact ⟨hx, hy⟩

/-- C7. In every execution of the upgrade command the mutation calls
appear in order — possibly none, possibly the policy creation alone,
possibly the policy creation followed by the cluster update, never the
update first; if the policy creation fails the cluster update is never
attempted and the command exits 1; if the update fails after a
successful creation the command exits 1 and the trace holds exactly the
two calls — no compensating rollback call is ever issued
(part_000 lines 353-372). -/
theorem upgrade_submission_order (a : UpgradeArgs) (o : UpgradeOracle) :
    SubmissionOrdered o (upgradeRun a o) := by
  rcases upgradeRun_cases a o with h | h <;> rw [h]
  · simp [SubmissionOrdered, isMutation]
  · exact submissionOrdered_withConn o (upgradeBody a o) (upgradeBody_submission a o)

/-- Witness for `upgrade_submission_order`: when the policy-creation
call fails, no cluster update is issued and the run exits 1. -/
theorem upgrade_submission_order_witness :
    (∀ g, Event.clusterUpdate g ∉
        (upgradeRun happyArgs { happyOracle with policyCreateOk := false }).1)
    ∧ ((∃ v t, Event.policyCreate v t ∈
          (upgradeRun happyArgs { happyOracle with policyCreateOk := false }).1) →
        (upgradeRun happyArgs { happyOracle with policyCreateOk := false }).2 =
          .exited 1) :=
  (upgrade_submission_order happyArgs
    { happyOracle with policyCreateOk := false }).2.1 rfl

/-- A policy-creation event carries exactly the version and timestamp
resolved by `resolveVersion` and `resolveNextRun`. -/
theorem upgradeBody_policyCreate (a : UpgradeArgs) (o : UpgradeOracle)
    (v : String) (t : ℕ)
    (hm : Event.policyCreate v t ∈ (upgradeBody a o).1) :
    resolveVersion a o = .ok v ∧ resolveNextRun a o = .ok t := by
  unfold upgradeBody at hm
  repeat' split at hm
  all_goals simp_all

/-- A cluster-update event carries exactly the grace period resolved by
`resolveDrain`. -/
theorem upgradeBody_clusterUpdate (a : UpgradeArgs) (o : UpgradeOracle) (g : ℚ)
    (hm : Event.clusterUpdate g ∈ (upgradeBody a o).1) :
    resolveDrain a o = .value g := by
  unfold upgradeBody at hm
  repeat' split at hm
  all_goals simp_all

/-- In non-interactive mode a non-empty `--version` flag is passed
through unchanged by the resolution step. -/
theorem resolveVersion_flag (a : UpgradeArgs) (o : UpgradeOracle)
    (hi : o.interactive = false) (hv : a.version ≠ "") :
    resolveVersion a o = .ok a.version := by
  simp [resolveVersion, hi, hv]

/-- C6 amended. In non-interactive mode, whenever the caller supplied a
version that is not in the (non-empty) available-upgrades set and no
upgrade is already scheduled, the command exits with code 1 without
issuing any submission call (part_000 lines 210-221). (In interactive
mode the flag value is only the pre-selected default of the version
prompt, and the prompted choice is what is validated.) -/
theorem upgrade_invalid_version_fatal (a : UpgradeArgs) (o : UpgradeOracle)
    (hi : o.interactive = false) (hv : a.version ≠ "")
    (hm : a.version ∉ o.avail) (hs : o.scheduled = none) (hne : o.avail ≠ []) :
    FatalNoMutation (upgradeRun a o) := by
  have hrv := resolveVersion_flag a o hi hv
  have hct : o.avail.contains a.version = false := by
    simpa using hm
  unfold upgradeRun upgradeBody
  repeat' split
  all_goals simp_all [FatalNoMutation, withConn, isMutation]
  all_goals (try (repeat' split))
  all_goals simp_all

/-- Witness for `upgrade_invalid_version_fatal`: non-interactive run
asking for version 4.5.21 when only 4.5.20 is available. -/
theorem upgrade_invalid_version_fatal_witness :
    FatalNoMutation (upgradeRun { happyArgs with version := "4.5.21" } happyOracle) :=
  upgrade_invalid_version_fatal { happyArgs with version := "4.5.21" } happyOracle
    rfl (by decide) (by decide) rfl (by decide)

/-- C6 counterexample. The claim, read over all modes, fails: with
`--interactive --version 4.5.21` where only 4.5.20 is available, the
operator's prompt answer 4.5.20 replaces the caller-supplied version,
and the command issues the submission calls and succeeds instead of
failing fatally. -/
theorem upgrade_invalid_version_interactive_cex :
    "4.5.21" ∉
        ({ happyOracle with
            interactive := true,
            getOptionVersion := fun _ => .ok "4.5.20" } : UpgradeOracle).avail
    ∧ Event.policyCreate "4.5.20" 600 ∈
        (upgradeRun { happyArgs with version := "4.5.21" }
          { happyOracle with
              interactive := true,
              getOptionVersion := fun _ => .ok "4.5.20" }).1
    ∧ (upgradeRun { happyArgs with version := "4.5.21" }
        { happyOracle with
            interactive := true,
            getOptionVersion := fun _ => .ok "4.5.20" }).2 = .returned := by
  decide

/-- Combining a rendered `yyyy-mm-dd` date and a rendered `HH:mm` time
of the same moment truncates that moment to the minute. -/
theorem day_minute_combine (n : ℕ) :
    n / 86400 * 86400 + n % 86400 / 60 * 60 = n / 60 * 60 := by
  omega

/-- With no date/time flags and interactive mode off, the resolved
`nextRun` is now+10min truncated to the minute. -/
theorem resolveNextRun_default (a : UpgradeArgs) (o : UpgradeOracle)
    (hi : o.interactive = false) (hd : a.scheduleDate = "")
    (ht : a.scheduleTime = "") :
    resolveNextRun a o = .ok ((o.now + 600) / 60 * 60) := by
  simp [resolveNextRun, hi, hd, ht, goParseDT, day_minute_combine]

/-- C9. In non-interactive mode with neither `--schedule-date` nor
`--schedule-time`, any submitted upgrade policy carries a `nextRun`
within [now+9min, now+11min] of the clock value the default was
computed from — precisely now+10min with the seconds truncated by the
render/re-parse round trip (part_000 lines 223-230 and 272-277). -/
theorem upgrade_default_nextrun (a : UpgradeArgs) (o : UpgradeOracle)
    (hi : o.interactive = false) (hd : a.scheduleDate = "")
    (ht : a.scheduleTime = "")
    (v : String) (t : ℕ)
    (hm : Event.policyCreate v t ∈ (upgradeRun a o).1) :
    o.now + 540 ≤ t ∧ t ≤ o.now + 660 ∧ t = (o.now + 600) / 60 * 60 := by
  rcases upgradeRun_cases a o with h | h <;> rw [h] at hm
  · simp at hm
  · rw [withConn_mem_mut (upgradeBody a o) (Event.policyCreate v t) rfl] at hm
    have h1 := (upgradeBody_policyCreate a o v t hm).2
    rw [resolveNextRun_default a o hi hd ht] at h1
    have h2 : t = (o.now + 600) / 60 * 60 := by
      injection h1 with h1
      omega
    refine ⟨?_, ?_, h2⟩ <;> omega

/-- Witness for `upgrade_default_nextrun`: the happy non-interactive run
at clock 0 schedules `nextRun` 600 = 0+10min. -/
theorem upgrade_default_nextrun_witness :
    (0 : ℕ) + 540 ≤ 600 ∧ 600 ≤ (0 : ℕ) + 660 ∧ 600 = ((0 : ℕ) + 600) / 60 * 60 := by
  have h := upgrade_default_nextrun happyArgs happyOracle rfl rfl rfl
    "4.5.20" 600 (by decide)
  exact h

/-! ### Decimal rendering and parsing round trip -/

/-- A digit character produced by `digitChar` satisfies `isDig`. -/
theorem digitChar_isDig (n : ℕ) (h : n < 10) : isDig (digitChar n) = true := by
  interval_cases n <;> decide

/-- Numeric value of a digit character. -/
theorem digitChar_toNat (n : ℕ) (h : n < 10) : (digitChar n).toNat = 48 + n := by
  interval_cases n <;> decide

/-- A decimal numeral consists of digit characters only. -/
theorem natToDecChars_dig (n : ℕ) : ∀ c ∈ natToDecChars n, isDig c = true := by
  induction n using Nat.strong_induction_on with
  | _ n ih =>
    rw [natToDecChars]
    split
    case isTrue h =>
      intro c hc
      simp only [List.mem_singleton] at hc
      subst hc
      exact digitChar_isDig n h
    case isFalse h =>
      intro c hc
      rw [List.mem_append] at hc
      rcases hc with hc | hc
      · exact ih (n / 10) (Nat.div_lt_self (by omega) (by omega)) c hc
      · simp only [List.mem_singleton] at hc
        subst hc
        exact digitChar_isDig (n % 10) (by omega)

/-- A decimal numeral is never empty. -/
theorem natToDecChars_ne_nil (n : ℕ) : natToDecChars n ≠ [] := by
  rw [natToDecChars]
  split <;> simp

/-- A decimal numeral holds no space character. -/
theorem natToDecChars_no_space (n : ℕ) : ' ' ∉ natToDecChars n := by
  intro h
  exact absurd (natToDecChars_dig n ' ' h) (by decide)

/-- `digitsToNat` peels the least significant digit. -/
theorem digitsToNat_append (a : List Char) (c : Char) :
    digitsToNat (a ++ [c]) = 10 * digitsToNat a + (c.toNat - 48) := by
  simp [digitsToNat, List.foldl_append]

/-- Parsing the decimal numeral of `n` gives back `n`. -/
theorem digitsToNat_natToDecChars (n : ℕ) :
    digitsToNat (natToDecChars n) = n := by
  induction n using Nat.strong_induction_on with
  | _ n ih =>
    rw [natToDecChars]
    split
    case isTrue h =>
      simp [digitsToNat, digitChar_toNat n h]
    case isFalse h =>
      rw [digitsToNat_append,
        ih (n / 10) (Nat.div_lt_self (by omega) (by omega)),
        digitChar_toNat (n % 10) (by omega)]
      omega

/-- `takeWhile` keeps a list all of whose elements satisfy the
predicate. -/
theorem takeWhile_all_eq (p : Char → Bool) (l : List Char)
    (h : ∀ c ∈ l, p c = true) : l.takeWhile p = l := by
  induction l with
  | nil => rfl
  | cons c r ih =>
    rw [List.takeWhile_cons, h c (List.mem_cons_self c r),
      ih (fun x hx => h x (List.mem_cons_of_mem c hx))]
    simp

/-- `dropWhile` drops a list all of whose elements satisfy the
predicate. -/
theorem dropWhile_all_nil (p : Char → Bool) (l : List Char)
    (h : ∀ c ∈ l, p c = true) : l.dropWhile p = [] := by
  induction l with
  | nil => rfl
  | cons c r ih =>
    rw [List.dropWhile_cons, h c (List.mem_cons_self c r)]
    exact ih (fun x hx => h x (List.mem_cons_of_mem c hx))

/-- `parseUnsigned` on a non-empty all-digit list yields its value. -/
theorem parseUnsigned_digits (l : List Char) (hne : l ≠ [])
    (h : ∀ c ∈ l, isDig c = true) :
    parseUnsigned l = some ((digitsToNat l : ℕ) : ℚ) := by
  unfold parseUnsigned
  rw [dropWhile_all_nil isDig l h]
  simp [List.isEmpty_iff, hne]

/-- `parseFloatChars` on a non-empty all-digit list yields its value. -/
theorem parseFloatChars_digits (l : List Char) (hne : l ≠ [])
    (h : ∀ c ∈ l, isDig c = true) :
    parseFloatChars l = some ((digitsToNat l : ℕ) : ℚ) := by
  match l, hne with
  | c :: r, _ =>
    have hc := h c (List.mem_cons_self c r)
    have h1 : c ≠ '-' := by
      rintro rfl
      exact absurd hc (by decide)
    have h2 : c ≠ '+' := by
      rintro rfl
      exact absurd hc (by decide)
    rw [parseFloatChars]
    simp only [h1, h2, if_false]
    exact parseUnsigned_digits (c :: r) (by simp) h

/-- Parsing the rendered numeral of `n` gives back `n`, exactly. -/
theorem parseFloatChars_natToDec (n : ℕ) :
    parseFloatChars (natToDecChars n) = some ((n : ℕ) : ℚ) := by
  rw [parseFloatChars_digits (natToDecChars n) (natToDecChars_ne_nil n)
    (natToDecChars_dig n), digitsToNat_natToDecChars]

/-- Splitting a space-free list returns it whole. -/
theorem splitSp_no_space (l : List Char) (h : ' ' ∉ l) : splitSp l = [l] := by
  induction l with
  | nil => rfl
  | cons c r ih =>
    have hc : c ≠ ' ' := fun hx => h (hx ▸ List.mem_cons_self c r)
    rw [splitSp, if_neg hc, ih (fun hx => h (List.mem_cons_of_mem c hx))]

/-- Splitting at the single separating space of a two-token list. -/
theorem splitSp_append (a b : List Char) (ha : ' ' ∉ a) :
    splitSp (a ++ ' ' :: b) = a :: splitSp b := by
  induction a with
  | nil =>
    simp [splitSp]
  | cons c r ih =>
    have hc : c ≠ ' ' := fun hx => ha (hx ▸ List.mem_cons_self c r)
    rw [List.cons_append, splitSp, if_neg hc,
      ih (fun hx => ha (List.mem_cons_of_mem c hx))]

/-- `String.append` concatenates the character lists. -/
theorem str_data_append (s t : String) : (s ++ t).data = s.data ++ t.data := rfl

/-- The grace-period parser on a string of shape
`<number token> <unit token>`: the parsed number, times 60 exactly when
the unit token is `"hours"` or `"hour"`. -/
theorem resolveGrace_two_tokens (numCh : List Char) (u : String) (q : ℚ)
    (hd : parseFloatChars numCh = some q) (hs : ' ' ∉ numCh)
    (hu : ' ' ∉ u.data) :
    resolveGrace ⟨numCh ++ ' ' :: u.data⟩ =
      .val (if u = "hours" ∨ u = "hour" then q * 60 else q) := by
  have hcond : (u.data = ("hours" : String).data ∨ u.data = ("hour" : String).data)
      ↔ (u = "hours" ∨ u = "hour") := by
    constructor
    · rintro (hx | hx)
      · exact Or.inl (String.ext hx)
      · exact Or.inr (String.ext hx)
    · rintro (rfl | rfl)
      · exact Or.inl rfl
      · exact Or.inr rfl
  unfold resolveGrace
  rw [show (String.mk (numCh ++ ' ' :: u.data)).data = numCh ++ ' ' :: u.data from rfl,
    splitSp_append numCh u.data hs, splitSp_no_space u.data hu]
  simp only [List.headI, hd, List.get?]
  rw [if_congr hcond rfl rfl]
  split <;> rfl

/-- C8. Grace-period normalization (part_000 lines 327-335) parses the
string as `<number> <unit>` and multiplies the number by 60 exactly when
the unit token is `"hour"` or `"hours"`, leaving it unchanged otherwise;
in particular `"2 hours"` normalizes to 120 minutes, `"45 minutes"` to
45 minutes and `"1 hour"` to 60 minutes. -/
theorem grace_normalization :
    (∀ (numStr unitStr : String) (q : ℚ),
      ' ' ∉ numStr.data → ' ' ∉ unitStr.data →
      parseFloatChars numStr.data = some q →
      resolveGrace (numStr ++ " " ++ unitStr) =
        .val (if unitStr = "hours" ∨ unitStr = "hour" then q * 60 else q))
    ∧ resolveGrace "2 hours" = .val 120
    ∧ resolveGrace "45 minutes" = .val 45
    ∧ resolveGrace "1 hour" = .val 60 := by
  have key : ∀ (numStr unitStr : String) (q : ℚ),
      ' ' ∉ numStr.data → ' ' ∉ unitStr.data →
      parseFloatChars numStr.data = some q →
      resolveGrace (numStr ++ " " ++ unitStr) =
        .val (if unitStr = "hours" ∨ unitStr = "hour" then q * 60 else q) := by
    intro numStr unitStr q hs hu hd
    have hrep : numStr ++ " " ++ unitStr =
        String.mk (numStr.data ++ ' ' :: unitStr.data) := by
      apply String.ext
      rw [str_data_append, str_data_append]
      simp
    rw [hrep, resolveGrace_two_tokens numStr.data unitStr q hd hs hu]
  refine ⟨key, ?_, ?_, ?_⟩
  · have h := key "2" "hours" 2 (by decide) (by decide) (by decide)
    rw [show ("2" ++ " " ++ "hours" : String) = "2 hours" from by decide] at h
    rw [h, if_pos (Or.inl rfl)]
    norm_num [GraceOutcome.val.injEq]
  · have h := key "45" "minutes" 45 (by decide) (by decide) (by decide)
    rw [show ("45" ++ " " ++ "minutes" : String) = "45 minutes" from by decide] at h
    rw [h, if_neg (by decide)]
  · have h := key "1" "hour" 1 (by decide) (by decide) (by decide)
    rw [show ("1" ++ " " ++ "hour" : String) = "1 hour" from by decide] at h
    rw [h, if_pos (Or.inr rfl)]
    norm_num [GraceOutcome.val.injEq]

/-- Witness for `grace_normalization`: its general part applied to the
token pair of `"2 hours"`. -/
theorem grace_normalization_witness :
    resolveGrace ("2" ++ " " ++ "hours") =
      .val (if ("hours" : String) = "hours" ∨ ("hours" : String) = "hour"
        then (2 : ℚ) * 60 else 2) :=
  grace_normalization.1 "2" "hours" 2 (by decide) (by decide) (by decide)

/-! ### The stored grace period render/parse round trip -/

/-- Go's `int()` of a float64 holding a natural number. -/
theorem truncQ_natCast (v : ℕ) : truncQ (v : ℚ) = (v : ℤ) := by
  simp [truncQ, Rat.num_natCast, Rat.den_natCast]

/-- `%d` of a non-negative int is the decimal numeral. -/
theorem intToDecStr_natCast (n : ℕ) : intToDecStr (n : ℤ) = natToDecStr n := by
  rw [intToDecStr, if_neg (by omega)]
  norm_num

/-- Go's truncating int division by 60 on a natural number. -/
theorem tdiv_natCast_60 (v : ℕ) : Int.tdiv (v : ℤ) 60 = ((v / 60 : ℕ) : ℤ) := rfl

/-- Rendering a stored grace period of `v` whole minutes: hours with Go
integer division when `v ≥ 60`, minutes otherwise. -/
theorem renderStoredND_minutes (v : ℕ) :
    renderStoredND (v : ℚ) "minutes" =
      if 60 ≤ v then
        natToDecStr (v / 60) ++ " " ++ (if v / 60 = 1 then "hour" else "hours")
      else natToDecStr v ++ " " ++ "minutes" := by
  simp only [renderStoredND, truncQ_natCast, tdiv_natCast_60, intToDecStr_natCast]
  by_cases h : 60 ≤ v
  · rw [if_pos (show (60 : ℤ) ≤ (v : ℤ) by exact_mod_cast h), if_pos h]
    by_cases h1 : v / 60 = 1
    · rw [if_pos (show ((v / 60 : ℕ) : ℤ) = 1 by exact_mod_cast h1), if_pos h1]
    · rw [if_neg (show ¬((v / 60 : ℕ) : ℤ) = 1 by exact_mod_cast h1), if_neg h1]
  · rw [if_neg (show ¬(60 : ℤ) ≤ (v : ℤ) by exact_mod_cast h), if_neg h]

/-- A `<numeral> <unit>` string is never empty. -/
theorem numeral_unit_ne_empty (x : ℕ) (u : String) :
    natToDecStr x ++ " " ++ u ≠ "" := by
  intro hx
  have hd := congrArg String.data hx
  rw [str_data_append, str_data_append] at hd
  have hds : (natToDecStr x).data = natToDecChars x := rfl
  rw [hds] at hd
  simp only [List.append_assoc, List.append_eq_nil] at hd
  exact natToDecChars_ne_nil x hd.1

/-- A `<numeral> <unit>` string in `String.mk` form. -/
theorem numeral_unit_mk (x : ℕ) (u : String) :
    natToDecStr x ++ " " ++ u = String.mk (natToDecChars x ++ ' ' :: u.data) := by
  apply String.ext
  rw [str_data_append, str_data_append]
  simp [natToDecStr]

/-- Grace-period resolution of a stored value of `v` whole minutes, with
the flag untouched and interactive mode off: the render/parse round trip
yields `v` when `v < 60` and `(v / 60) * 60` (integer division)
otherwise. -/
theorem resolveDrain_stored (v : ℕ) (a : UpgradeArgs) (o : UpgradeOracle)
    (h1 : o.ndStored = some (v : ℚ)) (h2 : o.ndStoredUnit = "minutes")
    (h3 : a.nodeDrainChanged = false) (h4 : o.interactive = false) :
    resolveDrain a o = .value (if v < 60 then (v : ℚ) else ((v / 60 : ℕ) : ℚ) * 60) := by
  unfold resolveDrain
  rw [h1, h2, h3, h4]
  simp only [renderStoredND_minutes, Bool.false_eq_true, or_false, if_false]
  by_cases h : 60 ≤ v
  · rw [if_pos h, if_neg (numeral_unit_ne_empty (v / 60) _)]
    by_cases h1 : v / 60 = 1
    · rw [if_pos h1, numeral_unit_mk,
        resolveGrace_two_tokens _ "hour" _ (parseFloatChars_natToDec (v / 60))
          (natToDecChars_no_space (v / 60)) (by decide),
        if_pos (Or.inr rfl), if_neg (by omega)]
    · rw [if_neg h1, numeral_unit_mk,
        resolveGrace_two_tokens _ "hours" _ (parseFloatChars_natToDec (v / 60))
          (natToDecChars_no_space (v / 60)) (by decide),
        if_pos (Or.inl rfl), if_neg (by omega)]
  · rw [if_neg h, if_neg (numeral_unit_ne_empty v _), numeral_unit_mk,
      resolveGrace_two_tokens _ "minutes" _ (parseFloatChars_natToDec v)
        (natToDecChars_no_space v) (by decide),
      if_neg (by decide), if_pos (by omega)]

/-- C10. For a cluster storing an explicit grace period of `v` whole
minutes, with `--node-drain-grace-period` not passed and interactive
mode off, the grace period submitted in the cluster update equals `v`
when `v < 60` and `60 * (v / 60)` (integer division from the rendering
to hours) when `v ≥ 60`; hence the round trip preserves the stored value
exactly iff `v < 60` or `60 ∣ v` (part_000 lines 284-304 and 327-340). -/
theorem upgrade_stored_grace (v : ℕ) (a : UpgradeArgs) (o : UpgradeOracle)
    (h1 : o.ndStored = some (v : ℚ)) (h2 : o.ndStoredUnit = "minutes")
    (h3 : a.nodeDrainChanged = false) (h4 : o.interactive = false)
    (g : ℚ) (hm : Event.clusterUpdate g ∈ (upgradeRun a o).1) :
    g = (if v < 60 then (v : ℚ) else 60 * ((v / 60 : ℕ) : ℚ))
    ∧ (g = (v : ℚ) ↔ (v < 60 ∨ 60 ∣ v)) := by
  rcases upgradeRun_cases a o with h | h <;> rw [h] at hm
  · simp at hm
  · rw [withConn_mem_mut (upgradeBody a o) (Event.clusterUpdate g) rfl] at hm
    have hd := upgradeBody_clusterUpdate a o g hm
    rw [resolveDrain_stored v a o h1 h2 h3 h4] at hd
    injection hd with hd
    have hg : g = (if v < 60 then (v : ℚ) else ((v / 60 : ℕ) : ℚ) * 60) := hd.symm
    constructor
    · rw [hg]
      by_cases hc : v < 60
      · rw [if_pos hc, if_pos hc]
      · rw [if_neg hc, if_neg hc, mul_comm]
    · rw [hg]
      by_cases hc : v < 60
      · simp [hc]
      · rw [if_neg hc]
        constructor
        · intro he
          right
          have hnat : v / 60 * 60 = v := by exact_mod_cast he
          exact ⟨v / 60, by omega⟩
        · rintro (hc2 | ⟨c, rfl⟩)
          · exact absurd hc2 hc
          · rw [Nat.mul_div_cancel_left c (by norm_num)]
            push_cast
            ring

/-- Witness for `upgrade_stored_grace`: the stored 90 minutes are
rendered as "1 hour" and silently resubmitted as 60 minutes. -/
theorem upgrade_stored_grace_witness :
    ((60 : ℚ) = if (90 : ℕ) < 60 then ((90 : ℕ) : ℚ) else 60 * (((90 : ℕ) / 60 : ℕ) : ℚ))
    ∧ ((60 : ℚ) = ((90 : ℕ) : ℚ) ↔ ((90 : ℕ) < 60 ∨ 60 ∣ (90 : ℕ))) := by
  have hd : resolveDrain happyArgs stored90Oracle = .value 60 := by
    rw [resolveDrain_stored 90 happyArgs stored90Oracle rfl rfl rfl rfl]
    norm_num
  have hv : resolveVersion happyArgs stored90Oracle = .ok "4.5.20" := rfl
  have hnr : resolveNextRun happyArgs stored90Oracle = .ok 600 := rfl
  have hm : Event.clusterUpdate 60 ∈ (upgradeRun happyArgs stored90Oracle).1 := by
    simp +decide [upgradeRun, upgradeBody, withConn, hv, hnr, hd]
  exact upgrade_stored_grace 90 happyArgs stored90Oracle rfl rfl rfl rfl 60 hm

end Moactl
